import Mathlib

/-!
Shallow embedding of the `discorm/base-driver` record-lifecycle engine
(`src/index.js`).  Records are JavaScript objects modelled as ordered
field lists; the storage collaborator (the five overridable primitives
`_fetch`, `_save`, `_update`, `_remove`, `findIterator`) is a `Driver`
structure threaded through an explicit store state.  Every lifecycle
call returns the settled result, the record's fields after the call,
the new store state, and the trace of hook emissions and primitive
invocations, in order.
-/

namespace BaseDriver

/-- JavaScript values as used by the model layer. -/
inductive Value where
  | undefined
  | vnull
  | vbool (b : Bool)
  | vnum (n : Int)
  | vstr (s : String)
  | vobj (entries : List (String × Value))

/-- JavaScript truthiness: the guard `if (!key) return` of `set` and the
`!this.id` test of `isNew`. -/
def falsy : Value → Bool
  | .undefined => true
  | .vnull => true
  | .vbool b => !b
  | .vnum n => n = 0
  | .vstr s => s = ""
  | .vobj _ => false

/-- A record's field bag: an ordered list of property bindings, keys unique
by construction (JavaScript object semantics). -/
abbrev Fields := List (String × Value)

/-- First binding of a property key, the JavaScript property read. -/
def lookFirst : Fields → String → Option Value
  | [], _ => none
  | p :: rest, k => if p.1 = k then some p.2 else lookFirst rest k

/-- Reading `this[key]`: an absent property reads as undefined. -/
def getField (fs : Fields) (k : String) : Value :=
  (lookFirst fs k).getD .undefined

/-- Property assignment `this[key] = value`: an existing key keeps its
position and gets the new value, a fresh key is appended. -/
def setField : Fields → String → Value → Fields
  | [], k, v => [(k, v)]
  | p :: rest, k, v => if p.1 = k then (k, v) :: rest else p :: setField rest k v

/-- The recursive call `this.set(k, v)` that `set` makes for each entry of
an object key: the string key `k` is itself checked by `if (!key) return`,
which rejects exactly the empty string, before the plain assignment. -/
def setKV (fs : Fields) (k : String) (v : Value) : Fields :=
  if k = "" then fs else setField fs k v

/-- JavaScript string conversion of a non-object property key. -/
def keyToString : Value → String
  | .undefined => "undefined"
  | .vnull => "null"
  | .vbool b => if b then "true" else "false"
  | .vnum n => toString n
  | .vstr s => s
  | .vobj _ => "[object Object]"

/-- `BaseModel.set(key, value)`: no-op on a falsy key; on an object key,
assign each entry in order via the recursive call (whose key is a string,
so the recursion is one level deep); otherwise a single assignment. -/
def set (fs : Fields) (key value : Value) : Fields :=
  if falsy key then fs
  else
    match key with
    | .vobj entries => entries.foldl (fun acc p => setKV acc p.1 p.2) fs
    | _ => setField fs (keyToString key) value

/-- `Object.assign` of two sources into a fresh empty object: every entry
of `a`, then every entry of `b`, assigned in order, so `b` wins on any
shared key. -/
def objAssign (a b : Fields) : Fields :=
  (a ++ b).foldl (fun acc p => setField acc p.1 p.2) []

/-- Last binding of a key in an entry list: the value an in-order sequence
of assignments leaves the key with. -/
def lookLast : Fields → String → Option Value
  | [], _ => none
  | p :: rest, k =>
    match lookLast rest k with
    | some v => some v
    | none => if p.1 = k then some p.2 else none

/-- The module's error taxonomy: `RecordNotFound`, `NotImplemented(method)`
and `UnsavedModel(action)`. -/
inductive Err where
  | recordNotFound
  | notImplemented (method : String)
  | unsavedModel (action : String)
deriving DecidableEq

/-- Observable events of a lifecycle run: a hook emission (`this.emit(name)`)
or a storage-primitive invocation. -/
inductive Ev where
  | hook (name : String)
  | prim (name : String)
deriving DecidableEq

/-- The `isNew` getter: `!this.id`, true when the id field is unset or falsy. -/
def isNew (fs : Fields) : Bool := falsy (getField fs "id")

/-- The storage collaborator: the four instance primitives `_fetch`, `_save`,
`_update`, `_remove` and the class primitive `findIterator`, over an explicit
store state `σ`.  The fetch, save and update primitives resolve with a value
that the engine merges into the record; `findIterator` yields, per call, the
sequence of pull results the lazy iterator would produce when drained, an
error element being a pull that throws. -/
structure Driver (σ : Type) where
  fetchP : σ → Fields → Except Err (Value × σ)
  saveP : σ → Fields → Except Err (Value × σ)
  updateP : σ → Fields → Except Err (Value × σ)
  removeP : σ → Fields → Except Err σ
  findIt : σ → Value → List (Except Err Fields)

/-- Result of one instance-level lifecycle call: the settled result, the
fields of the record after the call (the record is mutated in place, so they
are meaningful on failure too), the store state, and the event trace. -/
structure Outcome (σ : Type) where
  result : Except Err Unit
  fields : Fields
  st : σ
  trace : List Ev

/-- `BaseModel.fetch`: rejected on a New record before any effect; otherwise
`beforeFetch`, the fetch primitive, merge of its result, `afterFetch`. -/
def fetch {σ : Type} (d : Driver σ) (s : σ) (fs : Fields) : Outcome σ :=
  if isNew fs then ⟨.error (.unsavedModel "fetch"), fs, s, []⟩
  else
    match d.fetchP s fs with
    | .error e => ⟨.error e, fs, s, [.hook "beforeFetch", .prim "fetch"]⟩
    | .ok (v, s') =>
      ⟨.ok (), set fs v .undefined, s',
        [.hook "beforeFetch", .prim "fetch", .hook "afterFetch"]⟩

/-- `BaseModel.update(data)`: rejected on a New record before any effect;
otherwise merge `data` when truthy, then `validate`, `beforeUpdate`,
`beforeSave`, the update primitive, merge of its result, `afterSave`,
`afterUpdate`. -/
def update {σ : Type} (d : Driver σ) (s : σ) (fs : Fields) (data : Value) : Outcome σ :=
  if isNew fs then ⟨.error (.unsavedModel "update"), fs, s, []⟩
  else
    let fs1 := if falsy data then fs else set fs data .undefined
    match d.updateP s fs1 with
    | .error e =>
      ⟨.error e, fs1, s,
        [.hook "validate", .hook "beforeUpdate", .hook "beforeSave", .prim "update"]⟩
    | .ok (v, s') =>
      ⟨.ok (), set fs1 v .undefined, s',
        [.hook "validate", .hook "beforeUpdate", .hook "beforeSave", .prim "update",
          .hook "afterSave", .hook "afterUpdate"]⟩

/-- `BaseModel.save`: on a record that is not New, delegate to `update()`
with no data; on a New record run the create path: `validate`,
`beforeCreate`, `beforeSave`, the save primitive, merge of its result,
`afterSave`, `afterCreate`. -/
def save {σ : Type} (d : Driver σ) (s : σ) (fs : Fields) : Outcome σ :=
  if isNew fs then
    match d.saveP s fs with
    | .error e =>
      ⟨.error e, fs, s,
        [.hook "validate", .hook "beforeCreate", .hook "beforeSave", .prim "save"]⟩
    | .ok (v, s') =>
      ⟨.ok (), set fs v .undefined, s',
        [.hook "validate", .hook "beforeCreate", .hook "beforeSave", .prim "save",
          .hook "afterSave", .hook "afterCreate"]⟩
  else update d s fs .undefined

/-- `BaseModel.remove`: rejected on a New record before any effect;
otherwise `beforeRemove`, the remove primitive, `this.set('id', undefined)`,
`afterRemove`. -/
def remove {σ : Type} (d : Driver σ) (s : σ) (fs : Fields) : Outcome σ :=
  if isNew fs then ⟨.error (.unsavedModel "remove"), fs, s, []⟩
  else
    match d.removeP s fs with
    | .error e => ⟨.error e, fs, s, [.hook "beforeRemove", .prim "remove"]⟩
    | .ok s' =>
      ⟨.ok (), set fs (.vstr "id") .undefined, s',
        [.hook "beforeRemove", .prim "remove", .hook "afterRemove"]⟩

/-- `BaseModel.build` composed with the constructor: `new this(data)` applies
`set(data)` to an empty object. -/
def build (data : Value) : Fields := set [] data .undefined

/-- `BaseModel.create`: `this.build(data).save()`. -/
def create {σ : Type} (d : Driver σ) (s : σ) (data : Value) : Outcome σ :=
  save d s (build data)

/-- `BaseModel.findOne` on an iterator: pull the first item of the lazy
sequence and stop; an exhausted sequence resolves with nothing. -/
def findOne (it : List (Except Err Fields)) : Except Err (Option Fields) :=
  match it with
  | [] => .ok none
  | .error e :: _ => .error e
  | .ok f :: _ => .ok (some f)

/-- `BaseModel.findOne(query)`: `findOne` over `this.findIterator(query)`. -/
def findOneQ {σ : Type} (d : Driver σ) (s : σ) (q : Value) : Except Err (Option Fields) :=
  findOne (d.findIt s q)

/-- `BaseModel.findById(id)`: `findOne` on the query object with the one
entry `id`; an empty result throws `RecordNotFound`. -/
def findById {σ : Type} (d : Driver σ) (s : σ) (i : Value) : Except Err Fields :=
  match findOneQ d s (.vobj [("id", i)]) with
  | .error e => .error e
  | .ok none => .error .recordNotFound
  | .ok (some doc) => .ok doc

/-- `BaseModel.findOrCreate(query, data)`: return an existing match as-is;
otherwise `create(Object.assign(empty, data, query))`, query entries
assigned last. -/
def findOrCreate {σ : Type} (d : Driver σ) (s : σ) (query data : Fields) :
    Except Err Fields × σ × List Ev :=
  match findOneQ d s (.vobj query) with
  | .error e => (.error e, s, [])
  | .ok (some doc) => (.ok doc, s, [])
  | .ok none =>
    let o := create d s (.vobj (objAssign data query))
    match o.result with
    | .error e => (.error e, o.st, o.trace)
    | .ok _ => (.ok o.fields, o.st, o.trace)

/-- `BaseModel.createOrUpdate(query, data)`: update an existing match with
`data` alone; otherwise `create(Object.assign(empty, query, data))`, data
entries assigned last. -/
def createOrUpdate {σ : Type} (d : Driver σ) (s : σ) (query data : Fields) :
    Except Err Fields × σ × List Ev :=
  match findOneQ d s (.vobj query) with
  | .error e => (.error e, s, [])
  | .ok (some doc) =>
    let o := update d s doc (.vobj data)
    match o.result with
    | .error e => (.error e, o.st, o.trace)
    | .ok _ => (.ok o.fields, o.st, o.trace)
  | .ok none =>
    let o := create d s (.vobj (objAssign query data))
    match o.result with
    | .error e => (.error e, o.st, o.trace)
    | .ok _ => (.ok o.fields, o.st, o.trace)

/-- `BaseModel.updateIterator(query, data)` drained by `BaseModel.update`:
pull the items of the find sequence one at a time and run the full
`update(data)` lifecycle on each, threading the store state, stopping at
the first failure. -/
def updateAll {σ : Type} (d : Driver σ) (data : Value) :
    σ → List (Except Err Fields) → Except Err (List Fields) × σ × List Ev
  | s, [] => (.ok [], s, [])
  | s, .error e :: _ => (.error e, s, [])
  | s, .ok f :: rest =>
    let o := update d s f data
    match o.result with
    | .error e => (.error e, o.st, o.trace)
    | .ok _ =>
      let r := updateAll d data o.st rest
      (r.1.map (fun l => o.fields :: l), r.2.1, o.trace ++ r.2.2)

/-- `BaseModel.update(query, data)` (the static bulk operation): drain
`updateIterator(query, data)` into a list. -/
def updateMany {σ : Type} (d : Driver σ) (s : σ) (q data : Value) :
    Except Err (List Fields) × σ × List Ev :=
  updateAll d data s (d.findIt s q)

/-- `BaseModel.updateOne(query, data)`: `findOne(query)`; resolve with
nothing when empty, otherwise run `update(data)` on the match. -/
def updateOne {σ : Type} (d : Driver σ) (s : σ) (q data : Value) :
    Except Err (Option Fields) × σ × List Ev :=
  match findOneQ d s q with
  | .error e => (.error e, s, [])
  | .ok none => (.ok none, s, [])
  | .ok (some doc) =>
    let o := update d s doc data
    match o.result with
    | .error e => (.error e, o.st, o.trace)
    | .ok _ => (.ok (some o.fields), o.st, o.trace)

/-- `BaseModel.updateById(id, data)`: `updateOne` on the one-entry id query;
an empty result throws `RecordNotFound`. -/
def updateById {σ : Type} (d : Driver σ) (s : σ) (i data : Value) :
    Except Err Fields × σ × List Ev :=
  match updateOne d s (.vobj [("id", i)]) data with
  | (.error e, s', tr) => (.error e, s', tr)
  | (.ok none, s', tr) => (.error .recordNotFound, s', tr)
  | (.ok (some doc), s', tr) => (.ok doc, s', tr)

/-- `BaseModel.removeIterator(query)` drained by `BaseModel.remove`: pull
the items of the find sequence one at a time and run the full `remove()`
lifecycle on each, threading the store state, stopping at the first
failure. -/
def removeAll {σ : Type} (d : Driver σ) :
    σ → List (Except Err Fields) → Except Err (List Fields) × σ × List Ev
  | s, [] => (.ok [], s, [])
  | s, .error e :: _ => (.error e, s, [])
  | s, .ok f :: rest =>
    let o := remove d s f
    match o.result with
    | .error e => (.error e, o.st, o.trace)
    | .ok _ =>
      let r := removeAll d o.st rest
      (r.1.map (fun l => o.fields :: l), r.2.1, o.trace ++ r.2.2)

/-- `BaseModel.remove(query)` (the static bulk operation): drain
`removeIterator(query)` into a list. -/
def removeMany {σ : Type} (d : Driver σ) (s : σ) (q : Value) :
    Except Err (List Fields) × σ × List Ev :=
  removeAll d s (d.findIt s q)

/-- `BaseModel.removeOne(query)`: `findOne(query)`; resolve with nothing
when empty, otherwise run `remove()` on the match. -/
def removeOne {σ : Type} (d : Driver σ) (s : σ) (q : Value) :
    Except Err (Option Fields) × σ × List Ev :=
  match findOneQ d s q with
  | .error e => (.error e, s, [])
  | .ok none => (.ok none, s, [])
  | .ok (some doc) =>
    let o := remove d s doc
    match o.result with
    | .error e => (.error e, o.st, o.trace)
    | .ok _ => (.ok (some o.fields), o.st, o.trace)

/-- `BaseModel.removeById(id)`: `removeOne` on the one-entry id query; an
empty result throws `RecordNotFound`. -/
def removeById {σ : Type} (d : Driver σ) (s : σ) (i : Value) :
    Except Err Fields × σ × List Ev :=
  match removeOne d s (.vobj [("id", i)]) with
  | (.error e, s', tr) => (.error e, s', tr)
  | (.ok none, s', tr) => (.error .recordNotFound, s', tr)
  | (.ok (some doc), s', tr) => (.ok doc, s', tr)

/-- The unoverridden base class: every instance primitive throws
`NotImplemented` naming itself, and the default `findIterator` generator
body throws on its first pull, so the sequence it constructs is a single
erroring pull. -/
def defaultDriver : Driver Unit where
  fetchP := fun _ _ => .error (.notImplemented "model._fetch")
  saveP := fun _ _ => .error (.notImplemented "model._save")
  updateP := fun _ _ => .error (.notImplemented "model._update")
  removeP := fun _ _ => .error (.notImplemented "model._remove")
  findIt := fun _ _ => [.error (.notImplemented "Model.findIterator")]

/-- The create-path event sequence of `save()` on a New record. -/
def createSeq : List Ev :=
  [.hook "validate", .hook "beforeCreate", .hook "beforeSave", .prim "save",
    .hook "afterSave", .hook "afterCreate"]

/-- The update-path event sequence of `update()` on a persisted record. -/
def updateSeq : List Ev :=
  [.hook "validate", .hook "beforeUpdate", .hook "beforeSave", .prim "update",
    .hook "afterSave", .hook "afterUpdate"]

/-- The event sequence of `remove()` on a persisted record. -/
def removeSeq : List Ev :=
  [.hook "beforeRemove", .prim "remove", .hook "afterRemove"]

/-! Field-bag algebra: how property reads interact with assignment,
assignment folds, `Object.assign` and the constructor's `set`. -/

theorem lookFirst_setField (fs : Fields) (k k' : String) (v : Value) :
    lookFirst (setField fs k v) k' = if k' = k then some v else lookFirst fs k' := by
  induction fs with
  | nil =>
    rcases eq_or_ne k' k with h | h
    · subst h; simp [lookFirst, setField]
    · simp [lookFirst, setField, h, Ne.symm h]
  | cons p rest ih =>
    by_cases hp : p.1 = k
    · rcases eq_or_ne k' k with h | h
      · subst h; simp [setField, hp, lookFirst]
      · simp [setField, hp, lookFirst, h, Ne.symm h]
    · rcases eq_or_ne k' k with h | h
      · subst h; simp [setField, hp, lookFirst, ih]
      · simp [setField, hp, lookFirst, ih, h]

theorem getField_setField (fs : Fields) (k k' : String) (v : Value) :
    getField (setField fs k v) k' = if k' = k then v else getField fs k' := by
  simp only [getField, lookFirst_setField]
  rcases eq_or_ne k' k with h | h <;> simp [h]

theorem lookFirst_foldl_setField (l : Fields) :
    ∀ (m : Fields) (k : String),
      lookFirst (l.foldl (fun acc p => setField acc p.1 p.2) m) k =
        match lookLast l k with
        | some v => some v
        | none => lookFirst m k := by
  induction l with
  | nil => intro m k; simp [lookLast]
  | cons p rest ih =>
    intro m k
    simp only [List.foldl_cons, ih, lookLast]
    cases hr : lookLast rest k with
    | some v => simp
    | none =>
      simp only [lookFirst_setField]
      by_cases h : p.1 = k
      · simp [h]
      · simp [h, Ne.symm h]

theorem lookFirst_foldl_setKV (l : Fields) :
    ∀ (m : Fields) (k : String), k ≠ "" →
      lookFirst (l.foldl (fun acc p => setKV acc p.1 p.2) m) k =
        match lookLast l k with
        | some v => some v
        | none => lookFirst m k := by
  induction l with
  | nil => intro m k _; simp [lookLast]
  | cons p rest ih =>
    intro m k hk
    simp only [List.foldl_cons, ih _ _ hk, lookLast]
    cases hr : lookLast rest k with
    | some v => simp
    | none =>
      unfold setKV
      by_cases hp : p.1 = ""
      · have h0 : ("" : String) ≠ k := Ne.symm hk
        simp [hp, h0]
      · simp only [if_neg hp, lookFirst_setField]
        by_cases h : p.1 = k
        · simp [h]
        · simp [h, Ne.symm h]

theorem lookLast_append (a b : Fields) (k : String) :
    lookLast (a ++ b) k =
      match lookLast b k with
      | some v => some v
      | none => lookLast a k := by
  induction a with
  | nil => simp [lookLast]; cases lookLast b k <;> simp
  | cons p rest ih =>
    simp only [List.cons_append, lookLast, List.append_eq]
    rw [ih]
    cases hb : lookLast b k <;> cases hr : lookLast rest k <;> simp [hb, hr]

theorem lookFirst_eq_none (m : Fields) (k : String)
    (h : k ∉ m.map Prod.fst) : lookFirst m k = none := by
  induction m with
  | nil => rfl
  | cons p rest ih =>
    simp only [List.map_cons, List.mem_cons] at h
    push_neg at h
    have h1 : p.1 ≠ k := fun hc => h.1 hc.symm
    simp [lookFirst, h1, ih h.2]

theorem lookLast_of_nodup (m : Fields) (h : (m.map Prod.fst).Nodup) (k : String) :
    lookLast m k = lookFirst m k := by
  induction m with
  | nil => rfl
  | cons p rest ih =>
    simp only [List.map_cons, List.nodup_cons] at h
    obtain ⟨hp, hrest⟩ := h
    simp only [lookLast, lookFirst]
    rw [ih hrest]
    by_cases hk : p.1 = k
    · have hn := lookFirst_eq_none rest k (by rw [← hk]; exact hp)
      simp [hn, hk]
    · cases hf : lookFirst rest k <;> simp [hk, hf]

theorem mem_keys_setField (m : Fields) (k x : String) (v : Value) :
    x ∈ (setField m k v).map Prod.fst ↔ x ∈ m.map Prod.fst ∨ x = k := by
  induction m with
  | nil => simp [setField]
  | cons p rest ih =>
    by_cases hp : p.1 = k
    · subst hp
      simp [setField]
      tauto
    · simp [setField, hp, ih]
      tauto

theorem nodup_setField (m : Fields) (k : String) (v : Value)
    (h : (m.map Prod.fst).Nodup) : ((setField m k v).map Prod.fst).Nodup := by
  induction m with
  | nil => simp [setField]
  | cons p rest ih =>
    simp only [List.map_cons, List.nodup_cons] at h
    obtain ⟨hp, hrest⟩ := h
    by_cases hpk : p.1 = k
    · subst hpk
      have hs : setField (p :: rest) p.1 v = (p.1, v) :: rest := by simp [setField]
      rw [hs]
      simp only [List.map_cons, List.nodup_cons]
      exact ⟨hp, hrest⟩
    · simp only [setField, if_neg hpk, List.map_cons, List.nodup_cons]
      refine ⟨fun hc => ?_, ih hrest⟩
      rcases (mem_keys_setField rest k p.1 v).mp hc with hc | hc
      · exact hp hc
      · exact hpk hc

theorem nodup_foldl_setField (l : Fields) :
    ∀ m : Fields, (m.map Prod.fst).Nodup →
      ((l.foldl (fun acc p => setField acc p.1 p.2) m).map Prod.fst).Nodup := by
  induction l with
  | nil => intro m h; simpa using h
  | cons p rest ih =>
    intro m h
    simpa using ih _ (nodup_setField m p.1 p.2 h)

theorem nodup_objAssign (a b : Fields) :
    ((objAssign a b).map Prod.fst).Nodup :=
  nodup_foldl_setField (a ++ b) [] (by simp)

theorem lookFirst_objAssign (a b : Fields) (k : String) :
    lookFirst (objAssign a b) k = lookLast (a ++ b) k := by
  unfold objAssign
  rw [lookFirst_foldl_setField]
  cases lookLast (a ++ b) k <;> simp [lookFirst]

theorem lookFirst_build_objAssign (a b : Fields) (k : String) (hk : k ≠ "") :
    lookFirst (build (.vobj (objAssign a b))) k = lookLast (a ++ b) k := by
  have h1 : build (.vobj (objAssign a b)) =
      (objAssign a b).foldl (fun acc p => setKV acc p.1 p.2) [] := by
    simp [build, set, falsy]
  rw [h1, lookFirst_foldl_setKV _ _ _ hk,
    lookLast_of_nodup _ (nodup_objAssign a b), lookFirst_objAssign]
  cases lookLast (a ++ b) k <;> simp [lookFirst]

theorem getField_build_objAssign (a b : Fields) (k : String) (hk : k ≠ "") :
    getField (build (.vobj (objAssign a b))) k =
      match lookLast b k with
      | some v => v
      | none => (lookLast a k).getD .undefined := by
  simp only [getField, lookFirst_build_objAssign a b k hk, lookLast_append]
  cases lookLast b k <;> simp

theorem isNew_set_id_undef (fs : Fields) :
    isNew (set fs (.vstr "id") .undefined) = true := by
  simp [isNew, set, falsy, getField, keyToString, lookFirst_setField]

/-! Concrete drivers used to instantiate the theorems below. -/

/-- A small concrete storage collaborator whose primitives always succeed
and whose find sequence yields one persisted record. -/
def witDriver : Driver Nat where
  fetchP := fun s _ => .ok (.vobj [("w", .vnum 3)], s + 1)
  saveP := fun s _ => .ok (.vobj [("id", .vnum 7)], s + 1)
  updateP := fun s _ => .ok (.vobj [("u", .vnum 4)], s + 1)
  removeP := fun s _ => .ok (s + 1)
  findIt := fun _ _ => [.ok [("id", .vnum 1), ("a", .vnum 5)]]

/-- The same collaborator with an empty find sequence. -/
def witDriverEmpty : Driver Nat :=
  { witDriver with findIt := fun _ _ => [] }

/-- The same collaborator with a find sequence of two persisted records. -/
def witDriverTwo : Driver Nat :=
  { witDriver with findIt := fun _ _ => [.ok [("id", .vnum 1)], .ok [("id", .vnum 2)]] }

/-! The claims. -/

/-- C1: `save()` on a New record runs the create path, emitting exactly
`validate`, `beforeCreate`, `beforeSave`, the save primitive, `afterSave`,
`afterCreate` — the primitive strictly between `beforeSave` and `afterSave` —
merging the fields the primitive resolved with; when that merge carries the
assigned identity, the record ends Persisted.  `save()` on a Persisted record
is exactly `update()` and, when the update primitive succeeds, fires exactly
the update sequence, which is not the create sequence.  The outcome's fields
are in both cases the record's own mutated-in-place fields (same instance). -/
theorem C1_save_routing {σ : Type} (d : Driver σ) (s : σ) (fs : Fields) :
    (∀ v s', isNew fs = true → d.saveP s fs = .ok (v, s') →
      save d s fs = ⟨.ok (), set fs v .undefined, s', createSeq⟩ ∧
      (isNew (set fs v .undefined) = false → isNew (save d s fs).fields = false)) ∧
    (isNew fs = false →
      save d s fs = update d s fs .undefined ∧
      (∀ v s', d.updateP s fs = .ok (v, s') →
        (save d s fs).trace = updateSeq ∧ updateSeq ≠ createSeq)) := by
  constructor
  · intro v s' hnew hp
    constructor
    · simp [save, hnew, hp, createSeq]
    · intro hmerged
      simp [save, hnew, hp, hmerged]
  · intro hold
    refine ⟨by simp [save, hold], ?_⟩
    intro v s' hp
    constructor
    · simp [save, update, hold, falsy, hp, updateSeq]
    · decide

/-- C1 witness: a concrete New record runs the create path and a concrete
Persisted record fires the update sequence. -/
theorem C1_save_routing_witness :
    save witDriver 0 [("n", .vstr "a")] =
      ⟨.ok (), set [("n", .vstr "a")] (.vobj [("id", .vnum 7)]) .undefined, 1, createSeq⟩ ∧
    (save witDriver 0 [("id", .vnum 1)]).trace = updateSeq := by
  refine ⟨((C1_save_routing witDriver 0 [("n", .vstr "a")]).1
    (.vobj [("id", .vnum 7)]) 1 rfl rfl).1, ?_⟩
  exact (((C1_save_routing witDriver 0 [("id", .vnum 1)]).2 rfl).2
    (.vobj [("u", .vnum 4)]) 1 rfl).1

/-- C2: on a New record, `fetch()`, `update(patch)` and `remove()` each fail
with the unsaved-model error naming the action, with an empty event trace —
no hooks, no primitives — the fields unchanged (the patch is not merged) and
the store state untouched. -/
theorem C2_unsaved_guard {σ : Type} (d : Driver σ) (s : σ) (fs : Fields)
    (patch : Value) (h : isNew fs = true) :
    fetch d s fs = ⟨.error (.unsavedModel "fetch"), fs, s, []⟩ ∧
    update d s fs patch = ⟨.error (.unsavedModel "update"), fs, s, []⟩ ∧
    remove d s fs = ⟨.error (.unsavedModel "remove"), fs, s, []⟩ := by
  refine ⟨?_, ?_, ?_⟩ <;> simp [fetch, update, remove, h]

/-- C2 witness: a concrete New record with a concrete patch. -/
theorem C2_unsaved_guard_witness :
    update witDriver 0 [("n", .vstr "a")] (.vobj [("x", .vnum 1)]) =
      ⟨.error (.unsavedModel "update"), [("n", .vstr "a")], 0, []⟩ :=
  (C2_unsaved_guard witDriver 0 [("n", .vstr "a")] (.vobj [("x", .vnum 1)]) rfl).2.1

/-- C6: `remove()` on a Persisted record (remove primitive succeeding) emits
exactly `beforeRemove`, the remove primitive once, `afterRemove`, clears the
id field so the record becomes New, and yields the record's own fields; the
removed record can then be saved again, which runs the create path and, when
the save primitive resolves with a truthy identity, leaves it Persisted. -/
theorem C6_remove_then_resave {σ : Type} (d : Driver σ) (s : σ) (fs : Fields)
    (hP : isNew fs = false) (s' : σ) (hrem : d.removeP s fs = .ok s') :
    remove d s fs = ⟨.ok (), set fs (.vstr "id") .undefined, s', removeSeq⟩ ∧
    isNew (remove d s fs).fields = true ∧
    (∀ v s'', d.saveP s' (set fs (.vstr "id") .undefined) = .ok (v, s'') →
      save d s' (set fs (.vstr "id") .undefined) =
        ⟨.ok (), set (set fs (.vstr "id") .undefined) v .undefined, s'', createSeq⟩ ∧
      (isNew (set (set fs (.vstr "id") .undefined) v .undefined) = false →
        isNew (save d s' (set fs (.vstr "id") .undefined)).fields = false)) := by
  have h1 : remove d s fs = ⟨.ok (), set fs (.vstr "id") .undefined, s', removeSeq⟩ := by
    simp [remove, hP, hrem, removeSeq]
  refine ⟨h1, by rw [h1]; exact isNew_set_id_undef fs, ?_⟩
  intro v s'' hsave
  have hN : isNew (set fs (.vstr "id") .undefined) = true := isNew_set_id_undef fs
  constructor
  · simp [save, hN, hsave, createSeq]
  · intro hm
    simp [save, hN, hsave, hm]

/-- C6 witness: a concrete Persisted record is removed, becomes New, and
re-saving it runs the create path. -/
theorem C6_remove_then_resave_witness :
    remove witDriver 0 [("id", .vnum 1), ("n", .vstr "a")] =
      ⟨.ok (), set [("id", .vnum 1), ("n", .vstr "a")] (.vstr "id") .undefined, 1, removeSeq⟩ ∧
    (save witDriver 1 (set [("id", .vnum 1), ("n", .vstr "a")] (.vstr "id") .undefined)).trace
      = createSeq := by
  have h := C6_remove_then_resave witDriver 0 [("id", .vnum 1), ("n", .vstr "a")] rfl 1 rfl
  refine ⟨h.1, ?_⟩
  rw [(h.2.2 (.vobj [("id", .vnum 7)]) 2 rfl).1]

/-- C7: `findOne` depends only on the first pull of the lazy sequence: it is
invariant under everything past the head, returns the first yielded record of
a non-empty sequence, and resolves with nothing on an empty one; it carries
no trace and no state change, so no hooks fire and no record is mutated. -/
theorem C7_findOne_lazy :
    (∀ (σ : Type) (d : Driver σ) (s : σ) (q : Value),
      findOneQ d s q = findOne (d.findIt s q)) ∧
    findOne [] = .ok none ∧
    (∀ (f : Fields) (rest : List (Except Err Fields)),
      findOne (.ok f :: rest) = .ok (some f)) ∧
    (∀ (x : Except Err Fields) (rest rest' : List (Except Err Fields)),
      findOne (x :: rest) = findOne (x :: rest')) := by
  refine ⟨fun _ _ _ _ => rfl, rfl, fun f rest => rfl, fun x rest rest' => ?_⟩
  cases x <;> rfl

/-- C9: on the unoverridden base the find sequence is an ordinary value —
constructing it cannot fail — whose single pull yields `NotImplemented` for
`Model.findIterator`; `save()` on a New record and `fetch()`, `update()`,
`remove()` on a Persisted record each fail with `NotImplemented` naming the
missing primitive. -/
theorem C9_default_not_implemented (fs fsP : Fields) (q : Value)
    (hN : isNew fs = true) (hP : isNew fsP = false) :
    defaultDriver.findIt () q = [.error (.notImplemented "Model.findIterator")] ∧
    findOneQ defaultDriver () q = .error (.notImplemented "Model.findIterator") ∧
    (save defaultDriver () fs).result = .error (.notImplemented "model._save") ∧
    (fetch defaultDriver () fsP).result = .error (.notImplemented "model._fetch") ∧
    (update defaultDriver () fsP .undefined).result = .error (.notImplemented "model._update") ∧
    (remove defaultDriver () fsP).result = .error (.notImplemented "model._remove") := by
  refine ⟨rfl, rfl, ?_, ?_, ?_, ?_⟩ <;>
    simp [save, fetch, update, remove, hN, hP, defaultDriver]

/-- C9 witness: an empty record is New, a record with id 1 is Persisted. -/
theorem C9_default_not_implemented_witness :
    (save defaultDriver () []).result = .error (.notImplemented "model._save") ∧
    (fetch defaultDriver () [("id", .vnum 1)]).result
      = .error (.notImplemented "model._fetch") :=
  ⟨(C9_default_not_implemented [] [("id", .vnum 1)] .undefined rfl rfl).2.2.1,
    (C9_default_not_implemented [] [("id", .vnum 1)] .undefined rfl rfl).2.2.2.1⟩

/-- C10: `set(k, v)` with a falsy key — undefined, null, the empty string,
zero or false — leaves every field unchanged; hence `set()` with no
arguments, constructing a record with no initial data, and merging an
undefined primitive result are all no-ops on the field bag. -/
theorem C10_set_falsy_key (fs : Fields) (k v : Value) (h : falsy k = true) :
    set fs k v = fs ∧ set fs .undefined .undefined = fs ∧ build .undefined = [] := by
  refine ⟨by simp [set, h], by simp [set, falsy], by simp [build, set, falsy]⟩

/-- C10 witness: the five falsy keys on a concrete field bag. -/
theorem C10_set_falsy_key_witness :
    set [("a", .vnum 1)] (.vstr "") (.vnum 2) = [("a", .vnum 1)] ∧
    set [("a", .vnum 1)] .undefined (.vnum 2) = [("a", .vnum 1)] ∧
    set [("a", .vnum 1)] .vnull (.vnum 2) = [("a", .vnum 1)] ∧
    set [("a", .vnum 1)] (.vnum 0) (.vnum 2) = [("a", .vnum 1)] ∧
    set [("a", .vnum 1)] (.vbool false) (.vnum 2) = [("a", .vnum 1)] :=
  ⟨(C10_set_falsy_key [("a", .vnum 1)] (.vstr "") (.vnum 2) rfl).1,
    (C10_set_falsy_key [("a", .vnum 1)] .undefined (.vnum 2) rfl).1,
    (C10_set_falsy_key [("a", .vnum 1)] .vnull (.vnum 2) rfl).1,
    (C10_set_falsy_key [("a", .vnum 1)] (.vnum 0) (.vnum 2) rfl).1,
    (C10_set_falsy_key [("a", .vnum 1)] (.vbool false) (.vnum 2) rfl).1⟩

/-- C8: when the one-entry id query finds nothing, `findById`, `updateById`
and `removeById` fail with `RecordNotFound` and zero hooks fire, while the
`*One` counterparts resolve silently with nothing, also hook-free; on a
match, `findById` returns the found record and `updateById` / `removeById`
return the updated / removed record of the per-record lifecycle call. -/
theorem C8_byId_not_found {σ : Type} (d : Driver σ) (s : σ) (i pdata : Value) :
    (findOneQ d s (.vobj [("id", i)]) = .ok none →
      findById d s i = .error .recordNotFound ∧
      updateOne d s (.vobj [("id", i)]) pdata = (.ok none, s, []) ∧
      updateById d s i pdata = (.error .recordNotFound, s, []) ∧
      removeOne d s (.vobj [("id", i)]) = (.ok none, s, []) ∧
      removeById d s i = (.error .recordNotFound, s, [])) ∧
    (∀ doc, findOneQ d s (.vobj [("id", i)]) = .ok (some doc) →
      findById d s i = .ok doc ∧
      ((update d s doc pdata).result = .ok () →
        updateById d s i pdata =
          (.ok (update d s doc pdata).fields, (update d s doc pdata).st,
            (update d s doc pdata).trace)) ∧
      ((remove d s doc).result = .ok () →
        removeById d s i =
          (.ok (remove d s doc).fields, (remove d s doc).st,
            (remove d s doc).trace))) := by
  constructor
  · intro h
    refine ⟨?_, ?_, ?_, ?_, ?_⟩ <;>
      simp [findById, updateOne, updateById, removeOne, removeById, h]
  · intro doc h
    refine ⟨by simp [findById, h], ?_, ?_⟩
    · intro hu
      simp only [updateById, updateOne, h]
      cases hres : (update d s doc pdata).result with
      | error e => rw [hres] at hu; exact absurd hu (by simp)
      | ok u => simp
    · intro hr
      simp only [removeById, removeOne, h]
      cases hres : (remove d s doc).result with
      | error e => rw [hres] at hr; exact absurd hr (by simp)
      | ok u => simp

/-- C8 witness: an empty find sequence makes `findById` fail with
`RecordNotFound` and `removeById` fail hook-free, while a matching sequence
makes `findById` and `updateById` succeed. -/
theorem C8_byId_not_found_witness :
    findById witDriverEmpty 0 (.vnum 9) = .error .recordNotFound ∧
    removeById witDriverEmpty 0 (.vnum 9) = (.error .recordNotFound, 0, []) ∧
    findById witDriver 0 (.vnum 1) = .ok [("id", .vnum 1), ("a", .vnum 5)] ∧
    updateById witDriver 0 (.vnum 1) .undefined =
      (.ok (update witDriver 0 [("id", .vnum 1), ("a", .vnum 5)] .undefined).fields,
        (update witDriver 0 [("id", .vnum 1), ("a", .vnum 5)] .undefined).st,
        (update witDriver 0 [("id", .vnum 1), ("a", .vnum 5)] .undefined).trace) :=
  ⟨((C8_byId_not_found witDriverEmpty 0 (.vnum 9) .undefined).1 rfl).1,
    ((C8_byId_not_found witDriverEmpty 0 (.vnum 9) .undefined).1 rfl).2.2.2.2,
    ((C8_byId_not_found witDriver 0 (.vnum 1) .undefined).2
      [("id", .vnum 1), ("a", .vnum 5)] rfl).1,
    (((C8_byId_not_found witDriver 0 (.vnum 1) .undefined).2
      [("id", .vnum 1), ("a", .vnum 5)] rfl).2.1 rfl)⟩

theorem update_ok {σ : Type} (d : Driver σ) (s : σ) (f : Fields) (pdata : Value)
    (hf : isNew f = false) (v : Value) (s' : σ)
    (hp : d.updateP s (if falsy pdata then f else set f pdata .undefined) = .ok (v, s')) :
    update d s f pdata =
      ⟨.ok (), set (if falsy pdata then f else set f pdata .undefined) v .undefined, s',
        updateSeq⟩ := by
  simp [update, hf, hp, updateSeq]

theorem remove_ok {σ : Type} (d : Driver σ) (s : σ) (f : Fields)
    (hf : isNew f = false) (s' : σ) (hp : d.removeP s f = .ok s') :
    remove d s f = ⟨.ok (), set f (.vstr "id") .undefined, s', removeSeq⟩ := by
  simp [remove, hf, hp, removeSeq]

theorem updateAll_trace {σ : Type} (d : Driver σ) (pdata : Value)
    (hupd : ∀ (s1 : σ) (f1 : Fields), ∃ v s2, d.updateP s1 f1 = .ok (v, s2)) :
    ∀ (it : List (Except Err Fields)) (s : σ),
      (∀ x ∈ it, ∃ f, x = .ok f ∧ isNew f = false) →
      (updateAll d pdata s it).2.2 = (List.replicate it.length updateSeq).flatten ∧
      ∃ l, (updateAll d pdata s it).1 = .ok l := by
  intro it
  induction it with
  | nil => exact fun s _ => ⟨rfl, [], rfl⟩
  | cons x rest ih =>
    intro s h
    obtain ⟨f, hx, hf⟩ := h x (List.mem_cons_self x rest)
    subst hx
    obtain ⟨v, s2, hp⟩ := hupd s (if falsy pdata then f else set f pdata .undefined)
    have ho := update_ok d s f pdata hf v s2 hp
    have hrest := ih s2 (fun y hy => h y (List.mem_cons_of_mem _ hy))
    obtain ⟨l, hl⟩ := hrest.2
    simp only [updateAll, ho, List.length_cons, List.replicate_succ,
      List.flatten_cons]
    rw [hrest.1, hl]
    exact ⟨rfl, _, rfl⟩

theorem removeAll_trace {σ : Type} (d : Driver σ)
    (hrem : ∀ (s1 : σ) (f1 : Fields), ∃ s2, d.removeP s1 f1 = .ok s2) :
    ∀ (it : List (Except Err Fields)) (s : σ),
      (∀ x ∈ it, ∃ f, x = .ok f ∧ isNew f = false) →
      (removeAll d s it).2.2 = (List.replicate it.length removeSeq).flatten ∧
      ∃ l, (removeAll d s it).1 = .ok l := by
  intro it
  induction it with
  | nil => exact fun s _ => ⟨rfl, [], rfl⟩
  | cons x rest ih =>
    intro s h
    obtain ⟨f, hx, hf⟩ := h x (List.mem_cons_self x rest)
    subst hx
    obtain ⟨s2, hp⟩ := hrem s f
    have ho := remove_ok d s f hf s2 hp
    have hrest := ih s2 (fun y hy => h y (List.mem_cons_of_mem _ hy))
    obtain ⟨l, hl⟩ := hrest.2
    simp only [removeAll, ho, List.length_cons, List.replicate_succ,
      List.flatten_cons]
    rw [hrest.1, hl]
    exact ⟨rfl, _, rfl⟩

/-- C3: the bulk `update(query, data)` and `remove(query)` run the complete
per-record lifecycle once per record yielded by `findIterator(query)`, in
encounter order and strictly sequentially: when every yielded record is
persisted and the per-record primitives succeed, the whole emitted trace is
exactly the per-record event sequence — hooks with the primitive between
them — concatenated once per yielded record, with no interleaving and no
hook-bypassing batch path, and both bulk operations succeed. -/
theorem C3_bulk_per_record {σ : Type} (d : Driver σ) (s : σ) (q pdata : Value)
    (hit : ∀ x ∈ d.findIt s q, ∃ f, x = .ok f ∧ isNew f = false)
    (hupd : ∀ (s1 : σ) (f1 : Fields), ∃ v s2, d.updateP s1 f1 = .ok (v, s2))
    (hrem : ∀ (s1 : σ) (f1 : Fields), ∃ s2, d.removeP s1 f1 = .ok s2) :
    ((updateMany d s q pdata).2.2 =
        (List.replicate (d.findIt s q).length updateSeq).flatten ∧
      ∃ l, (updateMany d s q pdata).1 = .ok l) ∧
    ((removeMany d s q).2.2 =
        (List.replicate (d.findIt s q).length removeSeq).flatten ∧
      ∃ l, (removeMany d s q).1 = .ok l) :=
  ⟨updateAll_trace d pdata hupd (d.findIt s q) s hit,
    removeAll_trace d hrem (d.findIt s q) s hit⟩

/-- C3 witness: two matched records produce the per-record sequence exactly
twice, in order. -/
theorem C3_bulk_per_record_witness :
    (updateMany witDriverTwo 0 .undefined (.vobj [("x", .vnum 1)])).2.2 =
      updateSeq ++ updateSeq ∧
    (removeMany witDriverTwo 0 .undefined).2.2 = removeSeq ++ removeSeq := by
  have h := C3_bulk_per_record witDriverTwo 0 .undefined (.vobj [("x", .vnum 1)])
    (by
      intro x hx
      simp only [witDriverTwo, witDriver, List.mem_cons, List.not_mem_nil,
        or_false] at hx
      rcases hx with rfl | rfl
      · exact ⟨_, rfl, rfl⟩
      · exact ⟨_, rfl, rfl⟩)
    (fun s1 f1 => ⟨.vobj [("u", .vnum 4)], s1 + 1, rfl⟩)
    (fun s1 f1 => ⟨s1 + 1, rfl⟩)
  refine ⟨?_, ?_⟩
  · rw [h.1.1]; rfl
  · rw [h.2.1]; rfl

/-- C4: `createOrUpdate(query, data)` with a match runs `update(data)` on
the match — merging only `data`, never reapplying the query fields — and
returns its result; with no match it builds and saves a record whose initial
fields are `query` merged with `data` layered on top: on a conflicting
non-empty key the binding in `data` wins, and a key found only in `query`
keeps its `query` value. -/
theorem C4_createOrUpdate {σ : Type} (d : Driver σ) (s : σ) (query pdata : Fields) :
    (∀ doc, findOneQ d s (.vobj query) = .ok (some doc) →
      (update d s doc (.vobj pdata)).result = .ok () →
      createOrUpdate d s query pdata =
        (.ok (update d s doc (.vobj pdata)).fields, (update d s doc (.vobj pdata)).st,
          (update d s doc (.vobj pdata)).trace)) ∧
    (findOneQ d s (.vobj query) = .ok none →
      ((create d s (.vobj (objAssign query pdata))).result = .ok () →
        createOrUpdate d s query pdata =
          (.ok (create d s (.vobj (objAssign query pdata))).fields,
            (create d s (.vobj (objAssign query pdata))).st,
            (create d s (.vobj (objAssign query pdata))).trace)) ∧
      (∀ k v, k ≠ "" → lookLast pdata k = some v →
        getField (build (.vobj (objAssign query pdata))) k = v) ∧
      (∀ k v, k ≠ "" → lookLast pdata k = none → lookLast query k = some v →
        getField (build (.vobj (objAssign query pdata))) k = v)) := by
  constructor
  · intro doc h hres
    simp only [createOrUpdate, h]
    cases hr : (update d s doc (.vobj pdata)).result with
    | error e => rw [hr] at hres; exact absurd hres (by simp)
    | ok u => simp
  · intro h
    refine ⟨?_, ?_, ?_⟩
    · intro hres
      simp only [createOrUpdate, h]
      cases hr : (create d s (.vobj (objAssign query pdata))).result with
      | error e => rw [hr] at hres; exact absurd hres (by simp)
      | ok u => simp
    · intro k v hk hd
      rw [getField_build_objAssign query pdata k hk, hd]
    · intro k v hk hd hq
      rw [getField_build_objAssign query pdata k hk, hd, hq]
      rfl

/-- C4 witness: a concrete match is updated with the data alone; a concrete
miss creates from the data-over-query merge, data winning on the shared key. -/
theorem C4_createOrUpdate_witness :
    createOrUpdate witDriver 0 [("a", .vnum 5)] [("b", .vnum 2)] =
      (.ok (update witDriver 0 [("id", .vnum 1), ("a", .vnum 5)]
          (.vobj [("b", .vnum 2)])).fields,
        (update witDriver 0 [("id", .vnum 1), ("a", .vnum 5)]
          (.vobj [("b", .vnum 2)])).st,
        (update witDriver 0 [("id", .vnum 1), ("a", .vnum 5)]
          (.vobj [("b", .vnum 2)])).trace) ∧
    getField (build (.vobj (objAssign [("k", .vnum 1)] [("k", .vnum 2)]))) "k"
      = .vnum 2 :=
  ⟨(C4_createOrUpdate witDriver 0 [("a", .vnum 5)] [("b", .vnum 2)]).1
      [("id", .vnum 1), ("a", .vnum 5)] rfl rfl,
    ((C4_createOrUpdate witDriverEmpty 0 [("k", .vnum 1)] [("k", .vnum 2)]).2
      rfl).2.1 "k" (.vnum 2) (by decide) rfl⟩

/-- C5 (amended): `findOrCreate(query, extra)` with a match returns the match
exactly as-is, with an empty trace (zero hooks, zero primitives) and the
store untouched; with no match it builds a record whose initial fields are
`extra` merged with `query` layered on top — `query` wins on a conflicting
non-empty key — and saves it, and provided the merged initial fields leave
the record New, the full `save()` create path with its complete hook
sequence runs. -/
theorem C5_findOrCreate {σ : Type} (d : Driver σ) (s : σ) (query extra : Fields) :
    (∀ doc, findOneQ d s (.vobj query) = .ok (some doc) →
      findOrCreate d s query extra = (.ok doc, s, [])) ∧
    (findOneQ d s (.vobj query) = .ok none →
      (∀ k v, k ≠ "" → lookLast query k = some v →
        getField (build (.vobj (objAssign extra query))) k = v) ∧
      (∀ k v, k ≠ "" → lookLast query k = none → lookLast extra k = some v →
        getField (build (.vobj (objAssign extra query))) k = v) ∧
      (isNew (build (.vobj (objAssign extra query))) = true →
        ∀ v s', d.saveP s (build (.vobj (objAssign extra query))) = .ok (v, s') →
          findOrCreate d s query extra =
            (.ok (set (build (.vobj (objAssign extra query))) v .undefined), s',
              createSeq))) := by
  constructor
  · intro doc h
    simp [findOrCreate, h]
  · intro h
    refine ⟨?_, ?_, ?_⟩
    · intro k v hk hq
      rw [getField_build_objAssign extra query k hk, hq]
    · intro k v hk hq he
      rw [getField_build_objAssign extra query k hk, hq, he]
      rfl
    · intro hnew v s' hsave
      simp [findOrCreate, h, create, save, hnew, hsave, createSeq]

/-- C5 counterexample: `findOrCreate` on a missed query whose fields carry a
truthy id (here id 5) builds a record that is already Persisted, so `save()`
routes to the update path: the emitted trace is the update sequence and
`beforeCreate` never fires — the full create path does not run, refuting the
claim as universally stated. -/
theorem C5_findOrCreate_counterexample :
    findOneQ witDriverEmpty 0 (.vobj [("id", .vnum 5)]) = .ok none ∧
    (findOrCreate witDriverEmpty 0 [("id", .vnum 5)] []).2.2 = updateSeq ∧
    (findOrCreate witDriverEmpty 0 [("id", .vnum 5)] []).2.2 ≠ createSeq ∧
    Ev.hook "beforeCreate" ∉ (findOrCreate witDriverEmpty 0 [("id", .vnum 5)] []).2.2 := by
  refine ⟨rfl, rfl, by decide, by decide⟩

/-- C5 witness: a concrete match returns as-is hook-free; a concrete miss
with a New merge runs the create path, the query key winning the merge. -/
theorem C5_findOrCreate_witness :
    findOrCreate witDriver 0 [("a", .vnum 5)] [("e", .vnum 2)] =
      (.ok [("id", .vnum 1), ("a", .vnum 5)], 0, []) ∧
    findOrCreate witDriverEmpty 0 [("t", .vstr "x")] [("e", .vnum 2)] =
      (.ok (set (build (.vobj (objAssign [("e", .vnum 2)] [("t", .vstr "x")])))
          (.vobj [("id", .vnum 7)]) .undefined), 1, createSeq) ∧
    getField (build (.vobj (objAssign [("t", .vnum 1)] [("t", .vstr "x")]))) "t"
      = .vstr "x" :=
  ⟨(C5_findOrCreate witDriver 0 [("a", .vnum 5)] [("e", .vnum 2)]).1
      [("id", .vnum 1), ("a", .vnum 5)] rfl,
    ((C5_findOrCreate witDriverEmpty 0 [("t", .vstr "x")] [("e", .vnum 2)]).2
      rfl).2.2 rfl (.vobj [("id", .vnum 7)]) 1 rfl,
    ((C5_findOrCreate witDriverEmpty 0 [("t", .vstr "x")] [("t", .vnum 1)]).2
      rfl).1 "t" (.vstr "x") (by decide) rfl⟩

end BaseDriver
